import Mathlib

/-!
Verification of the tabular regression-evaluation workflow and the
notebook utilities of this repository, shallowly embedded in Lean 4.

The MiniProject pipeline (loader, feature/target split, regression
evaluator) is described by the design document and the report only, so
its operations are modelled from the spec; the notebook functions
(secret retrieval, tweet projection and JSON serialization) are
embedded from the notebook code.
-/

namespace ScreenTime

/-- Modelled from the spec: the repository contains no splitter code
(the report only states an 80/20 split), so the seeded pseudo-random
row shuffling is modelled as a linear congruential generator, the
standard deterministic PRNG. -/
def lcg (s : Nat) : Nat := (1664525 * s + 1013904223) % 4294967296

/-- Modelled from the spec: per-row sort key derived from the seed,
giving a reproducible pseudo-random order of row indices. -/
def splitKey (seed i : Nat) : Nat := lcg (seed + 2654435761 * i)

/-- Total order on row indices by pseudo-random key, ties broken by index. -/
def keyLE (seed : Nat) (a b : Nat) : Bool :=
  decide (splitKey seed a < splitKey seed b ∨ (splitKey seed a = splitKey seed b ∧ a ≤ b))

/-- Modelled from the spec: the randomized but seed-reproducible order of
the N row indices, obtained by sorting them by their pseudo-random key. -/
def shuffledIndices (seed N : Nat) : List Nat :=
  (List.range N).mergeSort (keyLE seed)

/-- Modelled from the spec: the training subset holds round(N*r) of the
N rows. -/
def trainCount (N : Nat) (r : ℚ) : Nat := (round ((N : ℚ) * r)).toNat

/-- A partition of row indices into training and evaluation subsets. -/
structure Split where
  training : List Nat
  evaluation : List Nat
deriving DecidableEq, Repr

/-- Error taxonomy of the split stage. -/
inductive SplitError where
  | InsufficientDataError
deriving DecidableEq, Repr

/-- Modelled from the spec: the Feature/Target Split stage partitions the
row indices 0..N-1 into Training and Evaluation by taking the first
round(N*r) indices of the seed-shuffled order, failing with
InsufficientDataError when fewer than 2 rows are available. -/
def featureTargetSplit (seed N : Nat) (r : ℚ) : Except SplitError Split :=
  if N < 2 then .error .InsufficientDataError
  else
    .ok
      { training := (shuffledIndices seed N).take (trainCount N r)
        evaluation := (shuffledIndices seed N).drop (trainCount N r) }

theorem shuffledIndices_perm (seed N : Nat) :
    (shuffledIndices seed N).Perm (List.range N) :=
  List.mergeSort_perm (List.range N) (keyLE seed)

theorem shuffledIndices_nodup (seed N : Nat) : (shuffledIndices seed N).Nodup :=
  ((shuffledIndices_perm seed N).nodup_iff).mpr (List.nodup_range N)

theorem shuffledIndices_length (seed N : Nat) : (shuffledIndices seed N).length = N := by
  simpa using (shuffledIndices_perm seed N).length_eq

theorem shuffledIndices_toFinset (seed N : Nat) :
    (shuffledIndices seed N).toFinset = Finset.range N := by
  have h := List.toFinset_eq_of_perm _ _ (shuffledIndices_perm seed N)
  rw [h]
  ext a
  simp

theorem trainCount_le (N : Nat) (r : ℚ) (hr1 : r < 1) : trainCount N r ≤ N := by
  unfold trainCount
  have h1 : round ((N : ℚ) * r) ≤ (N : ℤ) := by
    rw [round_eq]
    rw [Int.floor_le_iff]
    have hN0 : (0 : ℚ) ≤ (N : ℚ) := by positivity
    have : (N : ℚ) * r ≤ (N : ℚ) * 1 := by
      rcases eq_or_lt_of_le hN0 with h | h
      · rw [← h]; simp
      · exact (mul_le_mul_left h).mpr (le_of_lt hr1)
    push_cast
    linarith
  omega

theorem round_mul_nonneg (N : Nat) (r : ℚ) (hr0 : 0 < r) :
    0 ≤ round ((N : ℚ) * r) := by
  rw [round_eq]
  rw [Int.le_floor]
  have hN0 : (0 : ℚ) ≤ (N : ℚ) := by positivity
  have : (0 : ℚ) ≤ (N : ℚ) * r := mul_nonneg hN0 (le_of_lt hr0)
  push_cast
  linarith

/-- C1: for N at least 2 and 0 < r < 1, the split stage succeeds and
returns a partition of the row indices 0..N-1: the training and
evaluation index sets cover Finset.range N, are disjoint, and the
training subset holds exactly round(N*r) rows. -/
theorem featureTargetSplit_partition (seed N : Nat) (r : ℚ)
    (hN : 2 ≤ N) (hr0 : 0 < r) (hr1 : r < 1) :
    ∃ s, featureTargetSplit seed N r = .ok s ∧
      s.training.toFinset ∪ s.evaluation.toFinset = Finset.range N ∧
      s.training.toFinset ∩ s.evaluation.toFinset = ∅ ∧
      s.training.length = trainCount N r ∧
      s.evaluation.length = N - trainCount N r ∧
      (s.training.length : ℤ) = round ((N : ℚ) * r) := by
  have hnot : ¬ N < 2 := by omega
  refine ⟨_, by rw [featureTargetSplit, if_neg hnot], ?_, ?_, ?_, ?_, ?_⟩
  · rw [← List.toFinset_append, List.take_append_drop, shuffledIndices_toFinset]
  · have hdisj : List.Disjoint ((shuffledIndices seed N).take (trainCount N r))
        ((shuffledIndices seed N).drop (trainCount N r)) :=
      List.disjoint_take_drop (shuffledIndices_nodup seed N) (le_refl _)
    ext a
    simp only [Finset.mem_inter, List.mem_toFinset, Finset.not_mem_empty, iff_false]
    rintro ⟨h1, h2⟩
    exact hdisj h1 h2
  · rw [List.length_take, shuffledIndices_length]
    exact min_eq_left (trainCount_le N r hr1)
  · rw [List.length_drop, shuffledIndices_length]
  · rw [List.length_take, shuffledIndices_length,
      min_eq_left (trainCount_le N r hr1)]
    unfold trainCount
    rw [Int.toNat_of_nonneg (round_mul_nonneg N r hr0)]

/-- C1 witness: at N = 100 rows and ratio 0.8, the split stage yields the
80-row training and 20-row evaluation partition reported for the
screen-time dataset. -/
theorem featureTargetSplit_partition_witness :
    (2 ≤ 100 ∧ (0 : ℚ) < 4/5 ∧ (4/5 : ℚ) < 1 ∧ trainCount 100 (4/5) = 80) ∧
    (∃ s, featureTargetSplit 42 100 (4/5) = .ok s ∧
      s.training.toFinset ∪ s.evaluation.toFinset = Finset.range 100 ∧
      s.training.toFinset ∩ s.evaluation.toFinset = ∅ ∧
      s.training.length = trainCount 100 (4/5) ∧
      s.evaluation.length = 100 - trainCount 100 (4/5) ∧
      (s.training.length : ℤ) = round ((100 : ℚ) * (4/5))) :=
  ⟨⟨by norm_num, by norm_num, by norm_num, by
      have h : (((100 : ℕ) : ℚ) * (4/5)) = ((80 : ℤ) : ℚ) := by push_cast; norm_num
      rw [trainCount, h, round_intCast]
      rfl⟩,
    featureTargetSplit_partition 42 100 (4/5) (by norm_num) (by norm_num) (by norm_num)⟩

/-- C6: the split is a deterministic function of the dataset size, the
ratio and the seed: two runs with the same inputs produce identical
Splits, assigning the same rows to Training and to Evaluation. -/
theorem featureTargetSplit_deterministic (seed N : Nat) (r : ℚ)
    (s₁ s₂ : Except SplitError Split)
    (h₁ : s₁ = featureTargetSplit seed N r) (h₂ : s₂ = featureTargetSplit seed N r) :
    s₁ = s₂ ∧
    (∀ a b, s₁ = .ok a → s₂ = .ok b → a.training = b.training ∧ a.evaluation = b.evaluation) := by
  subst h₁ h₂
  refine ⟨rfl, ?_⟩
  intro a b ha hb
  rw [ha] at hb
  cases hb
  exact ⟨rfl, rfl⟩

/-- C6 witness: two runs of the split at seed 7, 10 rows, ratio 0.8
give the same result. -/
theorem featureTargetSplit_deterministic_witness :
    featureTargetSplit 7 10 (4/5) = featureTargetSplit 7 10 (4/5) ∧
    (∀ a b, featureTargetSplit 7 10 (4/5) = .ok a → featureTargetSplit 7 10 (4/5) = .ok b →
      a.training = b.training ∧ a.evaluation = b.evaluation) :=
  featureTargetSplit_deterministic 7 10 (4/5) _ _ rfl rfl

/-- Modelled from the spec: the per-row prediction residuals of a fitted
regression model (the concrete algorithm is a configuration choice, so
the model is an arbitrary function from feature vector to prediction)
on the evaluation rows. -/
def residuals (model : List ℚ → ℚ) (X : List (List ℚ)) (y : List ℚ) : List ℚ :=
  (X.zip y).map (fun p => p.2 - model p.1)

/-- Arithmetic mean of a list of rationals. -/
def mean (l : List ℚ) : ℚ := l.sum / l.length

/-- Sum of squared residuals over the evaluation rows. -/
def ssRes (model : List ℚ → ℚ) (X : List (List ℚ)) (y : List ℚ) : ℚ :=
  ((residuals model X y).map (fun e => e ^ 2)).sum

/-- Sum of squared deviations of the evaluation target from its mean. -/
def ssTot (y : List ℚ) : ℚ := (y.map (fun v => (v - mean y) ^ 2)).sum

/-- Error taxonomy of the evaluator stage. -/
inductive EvalError where
  | DegenerateTargetError
deriving DecidableEq, Repr

/-- The immutable metrics record of one evaluation run. -/
structure Metrics where
  mse : ℚ
  rmse : ℝ
  r2 : ℚ

/-- Modelled from the spec: the Regression Evaluator computes
MSE as the mean of the squared residuals, RMSE as the square root of
MSE and R2 as 1 minus ssRes/ssTot, failing with DegenerateTargetError
when the evaluation target has zero variance (ssTot = 0). The result is
returned once; nothing is retried. -/
noncomputable def evaluateModel (model : List ℚ → ℚ) (X : List (List ℚ)) (y : List ℚ) :
    Except EvalError Metrics :=
  if ssTot y = 0 then .error .DegenerateTargetError
  else
    .ok
      { mse := ssRes model X y / (y.length : ℚ)
        rmse := Real.sqrt ((ssRes model X y / (y.length : ℚ) : ℚ) : ℝ)
        r2 := 1 - ssRes model X y / ssTot y }

theorem sum_sq_nonneg (l : List ℚ) : 0 ≤ (l.map (fun e => e ^ 2)).sum := by
  induction l with
  | nil => simp
  | cons a tl ih =>
    simp only [List.map_cons, List.sum_cons]
    exact add_nonneg (sq_nonneg a) ih

theorem sum_sq_eq_zero_iff (l : List ℚ) :
    (l.map (fun e => e ^ 2)).sum = 0 ↔ ∀ e ∈ l, e = 0 := by
  induction l with
  | nil => simp
  | cons a tl ih =>
    simp only [List.map_cons, List.sum_cons, List.mem_cons]
    rw [add_eq_zero_iff_of_nonneg (sq_nonneg a) (sum_sq_nonneg tl)]
    rw [ih, sq_eq_zero_iff]
    constructor
    · rintro ⟨h0, hall⟩ e he
      rcases he with he | he
      · rw [he]; exact h0
      · exact hall e he
    · intro h
      exact ⟨h a (Or.inl rfl), fun e he => h e (Or.inr he)⟩

theorem ssRes_nonneg (model : List ℚ → ℚ) (X : List (List ℚ)) (y : List ℚ) :
    0 ≤ ssRes model X y := sum_sq_nonneg _

theorem ssTot_nonneg (y : List ℚ) : 0 ≤ ssTot y := by
  have h : ssTot y = ((y.map (fun v => v - mean y)).map (fun e => e ^ 2)).sum := by
    rw [ssTot, List.map_map]
    rfl
  rw [h]
  exact sum_sq_nonneg _

theorem ssTot_eq_zero_iff (y : List ℚ) : ssTot y = 0 ↔ ∀ v ∈ y, v = mean y := by
  have h : ssTot y = ((y.map (fun v => v - mean y)).map (fun e => e ^ 2)).sum := by
    rw [ssTot, List.map_map]
    rfl
  rw [h, sum_sq_eq_zero_iff]
  constructor
  · intro hz v hv
    have := hz (v - mean y) (List.mem_map_of_mem _ hv)
    linarith
  · intro hmean e he
    rcases List.mem_map.mp he with ⟨v, hv, hev⟩
    rw [← hev, hmean v hv]
    ring

theorem mean_of_const (y : List ℚ) (c : ℚ) (hne : y ≠ []) (h : ∀ a ∈ y, a = c) :
    mean y = c := by
  rw [mean, List.sum_eq_card_nsmul y c h, nsmul_eq_mul]
  have hlen : (y.length : ℚ) ≠ 0 := by
    simp only [ne_eq, Nat.cast_eq_zero, List.length_eq_zero]
    exact hne
  field_simp

theorem ssTot_eq_zero_iff_all_eq (y : List ℚ) :
    ssTot y = 0 ↔ ∀ a ∈ y, ∀ b ∈ y, a = b := by
  rw [ssTot_eq_zero_iff]
  constructor
  · intro h a ha b hb
    rw [h a ha, h b hb]
  · intro h v hv
    have hne : y ≠ [] := by
      intro hy
      rw [hy] at hv
      exact absurd hv (List.not_mem_nil v)
    rw [mean_of_const y v hne (fun a ha => h a ha v hv)]

/-- C2: every Metrics record produced by the evaluator has RMSE equal
exactly to the square root of MSE, where MSE is the mean of the squared
residuals over the evaluation rows. -/
theorem evaluator_rmse_eq_sqrt_mse (model : List ℚ → ℚ) (X : List (List ℚ)) (y : List ℚ)
    (h : ssTot y ≠ 0) :
    ∃ m, evaluateModel model X y = .ok m ∧
      m.rmse = Real.sqrt (m.mse : ℝ) ∧
      m.mse = ((residuals model X y).map (fun e => e ^ 2)).sum / (y.length : ℚ) := by
  rw [evaluateModel, if_neg h]
  exact ⟨_, rfl, rfl, rfl⟩

/-- C2 witness: a two-row evaluation set with nonzero target variance
yields a Metrics record with RMSE = sqrt(MSE). -/
theorem evaluator_rmse_eq_sqrt_mse_witness :
    ssTot [(1 : ℚ), 2] ≠ 0 ∧
    (∃ m, evaluateModel (fun _ => 0) [[1], [2]] [(1 : ℚ), 2] = .ok m ∧
      m.rmse = Real.sqrt (m.mse : ℝ) ∧
      m.mse = ((residuals (fun _ => 0) [[1], [2]] [(1 : ℚ), 2]).map (fun e => e ^ 2)).sum /
        (([(1 : ℚ), 2].length : ℕ) : ℚ)) :=
  ⟨by norm_num [ssTot, mean], evaluator_rmse_eq_sqrt_mse (fun _ => 0) [[1], [2]] [(1 : ℚ), 2]
    (by norm_num [ssTot, mean])⟩

/-- C3: when the evaluation target has nonzero variance, the evaluator
succeeds and the returned R2 = 1 - ssRes/ssTot satisfies R2 ≤ 1, with
equality exactly when every evaluation residual is zero. -/
theorem evaluator_r2_le_one (model : List ℚ → ℚ) (X : List (List ℚ)) (y : List ℚ)
    (h : ssTot y ≠ 0) :
    ∃ m, evaluateModel model X y = .ok m ∧
      m.r2 = 1 - ssRes model X y / ssTot y ∧
      m.r2 ≤ 1 ∧
      (m.r2 = 1 ↔ ∀ e ∈ residuals model X y, e = 0) := by
  rw [evaluateModel, if_neg h]
  have htot : 0 < ssTot y := lt_of_le_of_ne (ssTot_nonneg y) (Ne.symm h)
  have hdiv : 0 ≤ ssRes model X y / ssTot y :=
    div_nonneg (ssRes_nonneg model X y) (le_of_lt htot)
  refine ⟨_, rfl, rfl, ?_, ?_⟩
  · show 1 - ssRes model X y / ssTot y ≤ 1
    linarith
  · show 1 - ssRes model X y / ssTot y = 1 ↔ ∀ e ∈ residuals model X y, e = 0
    constructor
    · intro h1
      have hz : ssRes model X y / ssTot y = 0 := by linarith
      rcases div_eq_zero_iff.mp hz with hr | hb
      · exact (sum_sq_eq_zero_iff _).mp hr
      · exact absurd hb h
    · intro hall
      have hr : ssRes model X y = 0 := (sum_sq_eq_zero_iff _).mpr hall
      rw [hr, zero_div, sub_zero]

/-- C3 witness: a two-row evaluation set with nonzero target variance and
a nonzero residual gives R2 ≤ 1. -/
theorem evaluator_r2_le_one_witness :
    ssTot [(0 : ℚ), 2] ≠ 0 ∧
    (∃ m, evaluateModel (fun _ => 1) [[5], [6]] [(0 : ℚ), 2] = .ok m ∧
      m.r2 = 1 - ssRes (fun _ => 1) [[5], [6]] [(0 : ℚ), 2] / ssTot [(0 : ℚ), 2] ∧
      m.r2 ≤ 1 ∧
      (m.r2 = 1 ↔ ∀ e ∈ residuals (fun _ => 1) [[5], [6]] [(0 : ℚ), 2], e = 0)) :=
  ⟨by norm_num [ssTot, mean], evaluator_r2_le_one (fun _ => 1) [[5], [6]] [(0 : ℚ), 2]
    (by norm_num [ssTot, mean])⟩

/-- C4: the evaluator raises DegenerateTargetError exactly when all
evaluation target values are equal (zero variance), and in that case no
Metrics record is returned. -/
theorem evaluator_degenerate_iff (model : List ℚ → ℚ) (X : List (List ℚ)) (y : List ℚ) :
    (evaluateModel model X y = .error .DegenerateTargetError ↔ ∀ a ∈ y, ∀ b ∈ y, a = b) ∧
    ((∀ a ∈ y, ∀ b ∈ y, a = b) → ∀ m, evaluateModel model X y ≠ .ok m) := by
  by_cases h : ssTot y = 0
  · have hall := (ssTot_eq_zero_iff_all_eq y).mp h
    rw [evaluateModel, if_pos h]
    exact ⟨⟨fun _ => hall, fun _ => rfl⟩, fun _ m hm => Except.noConfusion hm⟩
  · have hnall : ¬ ∀ a ∈ y, ∀ b ∈ y, a = b :=
      fun hc => h ((ssTot_eq_zero_iff_all_eq y).mpr hc)
    rw [evaluateModel, if_neg h]
    refine ⟨⟨fun hc => Except.noConfusion hc, fun hc => absurd hc hnall⟩, ?_⟩
    intro hc
    exact absurd hc hnall

/-- Modelled from the spec: a categorical encoder is fitted on the
training rows only, recording the distinct categories seen there. -/
def fitEncoder (trainingCats : List String) : List String := trainingCats.dedup

/-- Modelled from the spec: the reserved encoding slot for categorical
values not observed during training. -/
def unknownBucket : Nat := 0

/-- Modelled from the spec: ordinal encoding of a categorical value.
Categories seen at fit time get successive codes starting at 1; any
other value maps to the reserved unknown bucket, the encoder is total
and never fails. -/
def encodeCat (enc : List String) (v : String) : Nat :=
  if v ∈ enc then enc.indexOf v + 1 else unknownBucket

/-- C5: a categorical value that occurs in an evaluation row but in no
training row is encoded without error, to the reserved unknown bucket;
values seen in training never collide with that bucket. -/
theorem encoder_unknown_bucket (train evalCats : List String) (v : String)
    (_hv : v ∈ evalCats) (hnot : v ∉ train) :
    encodeCat (fitEncoder train) v = unknownBucket ∧
    ∀ w ∈ train, encodeCat (fitEncoder train) w ≠ unknownBucket := by
  constructor
  · have hnd : v ∉ fitEncoder train := by
      rw [fitEncoder, List.mem_dedup]
      exact hnot
    rw [encodeCat, if_neg hnd]
  · intro w hw
    have hwd : w ∈ fitEncoder train := by
      rw [fitEncoder, List.mem_dedup]
      exact hw
    rw [encodeCat, if_pos hwd, unknownBucket]
    omega

/-- C5 witness: the category holiday, seen only in evaluation, encodes to
the unknown bucket; the training categories weekday and weekend do not. -/
theorem encoder_unknown_bucket_witness :
    ("holiday" ∈ ["weekend", "holiday"] ∧ "holiday" ∉ ["weekday", "weekend"]) ∧
    (encodeCat (fitEncoder ["weekday", "weekend"]) "holiday" = unknownBucket ∧
      ∀ w ∈ ["weekday", "weekend"],
        encodeCat (fitEncoder ["weekday", "weekend"]) w ≠ unknownBucket) :=
  ⟨⟨by decide, by decide⟩,
    encoder_unknown_bucket ["weekday", "weekend"] ["weekend", "holiday"] "holiday"
      (by decide) (by decide)⟩

/-- The input schema of the screen-time dataset. -/
def screenTimeColumns : List String :=
  ["age", "gender", "screen time type", "day type",
   "average screen time hours", "sample size"]

/-- The target column of the screen-time model. -/
def targetColumn : String := "average screen time hours"

/-- The column dropped during data cleaning. -/
def droppedColumns : List String := ["sample size"]

/-- Modelled from the spec: the Dataset Loader retains only the columns
not designated for exclusion. -/
def retainedColumns (cols dropped : List String) : List String :=
  cols.filter (fun c => decide (c ∉ dropped))

/-- Modelled from the spec: the feature columns are the retained columns
minus the target column. -/
def featureColumns (cols dropped : List String) (target : String) : List String :=
  (retainedColumns cols dropped).filter (fun c => decide (c ≠ target))

/-- The value of a named column in a record (association list of column
name to numeric-or-encoded value). -/
def lookupCol (record : List (String × ℚ)) (c : String) : ℚ :=
  (((record.find? (fun p => decide (p.1 = c))).map Prod.snd).getD 0)

/-- Modelled from the spec: a record's row of the FeatureMatrix reads
exactly the feature columns of the record. -/
def featureVector (cols dropped : List String) (target : String)
    (record : List (String × ℚ)) : List ℚ :=
  (featureColumns cols dropped target).map (fun c => lookupCol record c)

/-- C7: after dropping sample size and excluding the target, the feature
columns of the screen-time schema are exactly age, gender, screen time
type and day type; sample size contributes no feature, and two records
agreeing on those four columns get identical feature vectors. -/
theorem featureMatrix_predictors_only (r s : List (String × ℚ))
    (h : ∀ c ∈ featureColumns screenTimeColumns droppedColumns targetColumn,
      lookupCol r c = lookupCol s c) :
    featureColumns screenTimeColumns droppedColumns targetColumn =
      ["age", "gender", "screen time type", "day type"] ∧
    "sample size" ∉ featureColumns screenTimeColumns droppedColumns targetColumn ∧
    featureVector screenTimeColumns droppedColumns targetColumn r =
      featureVector screenTimeColumns droppedColumns targetColumn s := by
  refine ⟨by decide, by decide, ?_⟩
  exact List.map_congr_left h

/-- C7 witness: two records that agree on the four predictor columns but
differ on sample size produce the same feature vector. -/
theorem featureMatrix_predictors_only_witness :
    (∀ c ∈ featureColumns screenTimeColumns droppedColumns targetColumn,
      lookupCol [("age", 10), ("sample size", 500)] c =
        lookupCol [("age", 10), ("sample size", 900)] c) ∧
    (featureColumns screenTimeColumns droppedColumns targetColumn =
      ["age", "gender", "screen time type", "day type"] ∧
    "sample size" ∉ featureColumns screenTimeColumns droppedColumns targetColumn ∧
    featureVector screenTimeColumns droppedColumns targetColumn
        [("age", 10), ("sample size", 500)] =
      featureVector screenTimeColumns droppedColumns targetColumn
        [("age", 10), ("sample size", 900)]) :=
  ⟨by decide,
    featureMatrix_predictors_only [("age", 10), ("sample size", 500)]
      [("age", 10), ("sample size", 900)] (by decide)⟩

end ScreenTime

namespace Notebook

/-- The secrets-service response: the secret payload string, as returned
by get_secret_value. -/
structure SecretsResponse where
  SecretString : String

/-- What a get_secret call can surface: the ClientError of the secrets
service, a failure of json.loads on the payload, or a Python NameError
raised while an except clause evaluates an undefined name. -/
inductive RaisedError (C P : Type) where
  | client (e : C)
  | parse (e : P)
  | nameError (undefined : String)
deriving DecidableEq

/-- Embedded from get_secret in src/lab10.ipynb, which imports
ClientError from botocore.exceptions: the secrets client is called once
with the secret name; a ClientError is caught and re-raised unchanged;
otherwise the SecretString field of the response is parsed by
json.loads and that result returned. The second component records the
service calls made. -/
def get_secret_lab10 {C P J : Type} (svc : String → Except C SecretsResponse)
    (loads : String → Except P J) (secret_name : String) :
    Except (RaisedError C P) J × List String :=
  match svc secret_name with
  | .error e => (.error (.client e), [secret_name])
  | .ok resp =>
    match loads resp.SecretString with
    | .error e => (.error (.parse e), [secret_name])
    | .ok j => (.ok j, [secret_name])

/-- Embedded from get_secret in src/Lab9_Part2.ipynb: the function text
is identical to the lab10 copy, but that notebook never imports
ClientError, so when the service call raises, evaluating the except
clause's class expression raises NameError for the undefined name
ClientError and the service error is not re-raised; the success path is
unchanged. -/
def get_secret_lab9 {C P J : Type} (svc : String → Except C SecretsResponse)
    (loads : String → Except P J) (secret_name : String) :
    Except (RaisedError C P) J × List String :=
  match svc secret_name with
  | .error _ => (.error (.nameError "ClientError"), [secret_name])
  | .ok resp =>
    match loads resp.SecretString with
    | .error e => (.error (.parse e), [secret_name])
    | .ok j => (.ok j, [secret_name])

theorem get_secret_lab10_spec {C P J : Type} (svc : String → Except C SecretsResponse)
    (loads : String → Except P J) (name : String) :
    (get_secret_lab10 svc loads name).2 = [name] ∧
    (∀ e, svc name = .error e →
      (get_secret_lab10 svc loads name).1 = .error (.client e)) ∧
    (∀ resp, svc name = .ok resp →
      (get_secret_lab10 svc loads name).1 =
        (loads resp.SecretString).mapError RaisedError.parse) := by
  refine ⟨?_, ?_, ?_⟩
  · cases h : svc name with
    | error e => simp [get_secret_lab10, h]
    | ok resp =>
      cases h2 : loads resp.SecretString with
      | error e => simp [get_secret_lab10, h, h2]
      | ok j => simp [get_secret_lab10, h, h2]
  · intro e he
    simp [get_secret_lab10, he]
  · intro resp hresp
    cases h2 : loads resp.SecretString with
    | error e => simp [get_secret_lab10, hresp, h2, Except.mapError]
    | ok j => simp [get_secret_lab10, hresp, h2, Except.mapError]

theorem get_secret_lab9_error_path {C P J : Type} (svc : String → Except C SecretsResponse)
    (loads : String → Except P J) (name : String) (e : C) (he : svc name = .error e) :
    (get_secret_lab9 svc loads name).1 = .error (.nameError "ClientError") := by
  simp [get_secret_lab9, he]

/-- C8: the claim fails on src/Lab9_Part2.ipynb. At a secret name where
the secrets service raises a ClientError, the Lab9_Part2 copy of
get_secret (its notebook never imports ClientError) surfaces a
NameError for the unresolved name ClientError rather than re-raising
the service error unchanged, while the lab10 copy re-raises it
unchanged after its single service call, as the claim says. -/
theorem get_secret_clienterror_divergence :
    (get_secret_lab9 (fun _ => Except.error "AccessDeniedException")
        (fun s => (Except.ok s : Except String String)) "mongodb").1 =
      .error (.nameError "ClientError") ∧
    (get_secret_lab9 (fun _ => Except.error "AccessDeniedException")
        (fun s => (Except.ok s : Except String String)) "mongodb").1 ≠
      .error (.client "AccessDeniedException") ∧
    (get_secret_lab10 (fun _ => Except.error "AccessDeniedException")
        (fun s => (Except.ok s : Except String String)) "mongodb").1 =
      .error (.client "AccessDeniedException") ∧
    (get_secret_lab10 (fun _ => Except.error "AccessDeniedException")
        (fun s => (Except.ok s : Except String String)) "mongodb").2 = ["mongodb"] ∧
    (get_secret_lab9 (fun _ => Except.error "AccessDeniedException")
        (fun s => (Except.ok s : Except String String)) "mongodb").2 = ["mongodb"] :=
  ⟨rfl, by simp [get_secret_lab9], rfl, rfl, rfl⟩

/-- The single field path kept by the tweet query projection in
src/lab10.ipynb. -/
def tweetTextField : String := "tweet.text"

/-- Embedded from src/lab10.ipynb: the find-query inclusion projection
keeps exactly the listed field paths of a stored document, suppressing
_id and every other field. -/
def projectDoc (keep : List String) (doc : List (String × String)) :
    List (String × String) :=
  doc.filter (fun p => decide (p.1 ∈ keep))

/-- Embedded from src/lab10.ipynb: result_list, the stored documents
after the projection keeping only tweet.text. -/
def queryResultList (docs : List (List (String × String))) :
    List (List (String × String)) :=
  docs.map (projectDoc [tweetTextField])

/-- Embedded from src/lab10.ipynb: json_bytes, the in-memory JSON file,
is a serialization of result_list alone (dumps stands for the
json.dumps call). -/
def jsonFileContent (dumps : List (List (String × String)) → String)
    (docs : List (List (String × String))) : String :=
  dumps (queryResultList docs)

/-- C9: every pair kept by the projection has key tweet.text, and two
stores of documents with identical tweet.text entries yield identical
uploaded file contents, so no other stored field can influence the
file. -/
theorem tweet_upload_text_only (dumps : List (List (String × String)) → String)
    (docs1 docs2 : List (List (String × String)))
    (h : docs1.map (fun d => d.filter (fun p => decide (p.1 = tweetTextField))) =
         docs2.map (fun d => d.filter (fun p => decide (p.1 = tweetTextField)))) :
    jsonFileContent dumps docs1 = jsonFileContent dumps docs2 ∧
    ∀ d ∈ queryResultList docs1, ∀ p ∈ d, p.1 = tweetTextField := by
  have hproj : ∀ d : List (String × String),
      projectDoc [tweetTextField] d =
        d.filter (fun p => decide (p.1 = tweetTextField)) := by
    intro d
    rw [projectDoc]
    apply List.filter_congr
    intro p hp
    simp
  constructor
  · rw [jsonFileContent, jsonFileContent, queryResultList, queryResultList]
    congr 1
    calc docs1.map (projectDoc [tweetTextField])
        = docs1.map (fun d => d.filter (fun p => decide (p.1 = tweetTextField))) :=
          List.map_congr_left (fun d _ => hproj d)
      _ = docs2.map (fun d => d.filter (fun p => decide (p.1 = tweetTextField))) := h
      _ = docs2.map (projectDoc [tweetTextField]) :=
          (List.map_congr_left (fun d _ => hproj d)).symm
  · intro d hd p hp
    rcases List.mem_map.mp hd with ⟨d0, _, rfl⟩
    have hmem := (List.mem_filter.mp hp).2
    simpa using hmem

/-- C9 witness: two stores whose documents carry the same tweet.text but
different _id and user fields produce the same uploaded content. -/
theorem tweet_upload_text_only_witness :
    ([[("tweet.text", "hello"), ("_id", "1")]].map
        (fun d => d.filter (fun p => decide (p.1 = tweetTextField))) =
      [[("tweet.text", "hello"), ("_id", "2"), ("user", "bob")]].map
        (fun d => d.filter (fun p => decide (p.1 = tweetTextField)))) ∧
    (jsonFileContent (fun l => toString (l.map (fun d => d.map Prod.snd)))
        [[("tweet.text", "hello"), ("_id", "1")]] =
      jsonFileContent (fun l => toString (l.map (fun d => d.map Prod.snd)))
        [[("tweet.text", "hello"), ("_id", "2"), ("user", "bob")]] ∧
      ∀ d ∈ queryResultList [[("tweet.text", "hello"), ("_id", "1")]],
        ∀ p ∈ d, p.1 = tweetTextField) :=
  ⟨by decide,
    tweet_upload_text_only (fun l => toString (l.map (fun d => d.map Prod.snd)))
      [[("tweet.text", "hello"), ("_id", "1")]]
      [[("tweet.text", "hello"), ("_id", "2"), ("user", "bob")]] (by decide)⟩

mutual
/-- A Python value as it can occur in the MongoDB query results of
src/lab10.ipynb: JSON-native leaves, nested lists and dicts, and the
non-JSON-serializable leaves (object identifiers such as ObjectId, and
timestamps) that json.dumps rejects unless a default is supplied. -/
inductive PyVal where
  | pyStr (s : String)
  | pyInt (n : Int)
  | pyBool (b : Bool)
  | pyNone
  | pyList (l : PyList)
  | pyDict (d : PyDict)
  | objectId (s : String)
  | datetime (s : String)

/-- A Python list of such values. -/
inductive PyList where
  | nil
  | cons (v : PyVal) (tl : PyList)

/-- A Python dict with string keys and such values. -/
inductive PyDict where
  | nil
  | cons (k : String) (v : PyVal) (tl : PyDict)
end

/-- A JSON quotation of a string (escaping is irrelevant to
serializability). -/
def quoteStr (s : String) : String := "\"" ++ s ++ "\""

/-- The TypeError that json.dumps raises on a value it cannot
serialize. -/
inductive JsonTypeError where
  | unserializable
deriving DecidableEq, Repr

mutual
/-- Embedded from src/lab10.ipynb: json.dumps on one value. With
useDefault true (the notebook passes default=str) a non-serializable
leaf is rendered through str; without it, a TypeError is raised. -/
def dumpsVal (useDefault : Bool) : PyVal → Except JsonTypeError String
  | .pyStr s => .ok (quoteStr s)
  | .pyInt n => .ok (toString n)
  | .pyBool b => .ok (if b then "true" else "false")
  | .pyNone => .ok "null"
  | .pyList l => do
    let s ← dumpsElems useDefault l
    .ok ("[" ++ s ++ "]")
  | .pyDict d => do
    let s ← dumpsItems useDefault d
    .ok ("\x7b" ++ s ++ "\x7d")
  | .objectId s => if useDefault then .ok (quoteStr s) else .error .unserializable
  | .datetime s => if useDefault then .ok (quoteStr s) else .error .unserializable

/-- json.dumps over the elements of a list. -/
def dumpsElems (useDefault : Bool) : PyList → Except JsonTypeError String
  | .nil => .ok ""
  | .cons v tl => do
    let s ← dumpsVal useDefault v
    let rest ← dumpsElems useDefault tl
    .ok (s ++ "," ++ rest)

/-- json.dumps over the items of a dict. -/
def dumpsItems (useDefault : Bool) : PyDict → Except JsonTypeError String
  | .nil => .ok ""
  | .cons k v tl => do
    let s ← dumpsVal useDefault v
    let rest ← dumpsItems useDefault tl
    .ok (quoteStr k ++ ":" ++ s ++ "," ++ rest)
end

mutual
theorem dumpsVal_total : ∀ v : PyVal, ∃ s, dumpsVal true v = .ok s
  | .pyStr s => ⟨_, rfl⟩
  | .pyInt n => ⟨_, rfl⟩
  | .pyBool b => ⟨_, rfl⟩
  | .pyNone => ⟨_, rfl⟩
  | .pyList l => by
    obtain ⟨s, hs⟩ := dumpsElems_total l
    exact ⟨"[" ++ s ++ "]", by rw [dumpsVal, hs]; rfl⟩
  | .pyDict d => by
    obtain ⟨s, hs⟩ := dumpsItems_total d
    exact ⟨"\x7b" ++ s ++ "\x7d", by rw [dumpsVal, hs]; rfl⟩
  | .objectId s => ⟨_, rfl⟩
  | .datetime s => ⟨_, rfl⟩

theorem dumpsElems_total : ∀ l : PyList, ∃ s, dumpsElems true l = .ok s
  | .nil => ⟨_, rfl⟩
  | .cons v tl => by
    obtain ⟨s, hs⟩ := dumpsVal_total v
    obtain ⟨rest, hrest⟩ := dumpsElems_total tl
    exact ⟨s ++ "," ++ rest, by rw [dumpsElems, hs, hrest]; rfl⟩

theorem dumpsItems_total : ∀ d : PyDict, ∃ s, dumpsItems true d = .ok s
  | .nil => ⟨_, rfl⟩
  | .cons k v tl => by
    obtain ⟨s, hs⟩ := dumpsVal_total v
    obtain ⟨rest, hrest⟩ := dumpsItems_total tl
    exact ⟨quoteStr k ++ ":" ++ s ++ "," ++ rest, by rw [dumpsItems, hs, hrest]; rfl⟩
end

/-- C10: serializing any extracted record list with json.dumps and
default=str never raises: every value, including non-JSON-serializable
leaves such as object identifiers and timestamps however deeply nested,
is rendered, so the in-memory JSON file is always produced. -/
theorem json_dumps_default_str_total (l : PyList) :
    ∃ s, dumpsVal true (.pyList l) = .ok s :=
  dumpsVal_total (.pyList l)

end Notebook
